import Mathlib

/-!
Shallow embedding of
`src/backend/src/baserow/contrib/database/views/view_filters.py`.

Each `*GetFilter` definition below embeds the `get_filter` method of the
corresponding `ViewFilterType` class.  Django `Q` objects are embedded as the
`Frag` inductive (a boolean expression over one row), with `~Q` modelled as
logical complement and `Q()` as the universal-true fragment.  A `get_filter`
call that lets a Python exception escape is modelled as `none`; a returned `Q`
object is `some` of its fragment.

External library behaviour used by the source (Python `str.strip`/`lower`,
`int(...)`, `decimal.Decimal(...)`, `math.floor`/`ceil`,
`dateutil.parser.isoparse`, `datetime.astimezone`, Django model-field
`get_prep_value` coercion and SQL `UPPER`/`LIKE`) is modelled by explicit
executable definitions, each marked with a comment naming what it models.
-/

namespace BaserowFilters

/-- Model of Python's whitespace test used by `str.strip`. -/
def pySpace (c : Char) : Bool :=
  c == ' ' || c == '\t' || c == '\n' || c == '\r' || c == '\x0b' || c == '\x0c'

/-- Model of Python `str.strip()` on a character list. -/
def pystripL (l : List Char) : List Char :=
  ((l.dropWhile pySpace).reverse.dropWhile pySpace).reverse

/-- Model of Python `str.strip()`. -/
def pystrip (s : String) : String :=
  ⟨pystripL s.data⟩

/-- Model of Python `len` on a string (character count). -/
def pyLen (s : String) : Nat :=
  s.data.length

/-- ASCII lower-casing of one character; model of Python `str.lower` and of
the per-character behaviour of SQL `LOWER` for ASCII data. -/
def lowChar (c : Char) : Char :=
  match c with
  | 'A' => 'a' | 'B' => 'b' | 'C' => 'c' | 'D' => 'd' | 'E' => 'e'
  | 'F' => 'f' | 'G' => 'g' | 'H' => 'h' | 'I' => 'i' | 'J' => 'j'
  | 'K' => 'k' | 'L' => 'l' | 'M' => 'm' | 'N' => 'n' | 'O' => 'o'
  | 'P' => 'p' | 'Q' => 'q' | 'R' => 'r' | 'S' => 's' | 'T' => 't'
  | 'U' => 'u' | 'V' => 'v' | 'W' => 'w' | 'X' => 'x' | 'Y' => 'y'
  | 'Z' => 'z'
  | c => c

/-- ASCII upper-casing of one character; model of SQL `UPPER` for ASCII
data (used by the raw SQL of `FilenameContainsViewFilterType`). -/
def upChar (c : Char) : Char :=
  match c with
  | 'a' => 'A' | 'b' => 'B' | 'c' => 'C' | 'd' => 'D' | 'e' => 'E'
  | 'f' => 'F' | 'g' => 'G' | 'h' => 'H' | 'i' => 'I' | 'j' => 'J'
  | 'k' => 'K' | 'l' => 'L' | 'm' => 'M' | 'n' => 'N' | 'o' => 'O'
  | 'p' => 'P' | 'q' => 'Q' | 'r' => 'R' | 's' => 'S' | 't' => 'T'
  | 'u' => 'U' | 'v' => 'V' | 'w' => 'W' | 'x' => 'X' | 'y' => 'Y'
  | 'z' => 'Z'
  | c => c

/-- Model of Python `str.lower()`. -/
def pyLower (s : String) : String :=
  ⟨s.data.map lowChar⟩

/-- Uppercase a character list (SQL `UPPER`). -/
def upperL (l : List Char) : List Char :=
  l.map upChar

/-- `digitVal c` is the value of a decimal digit character, if it is one. -/
def digitVal (c : Char) : Option Nat :=
  if '0' ≤ c ∧ c ≤ '9' then some (c.toNat - 48) else none

/-- Fold a non-empty all-digit character list to a natural number. -/
def digitsToNat : List Char → Option Nat
  | [] => none
  | l =>
    l.foldl (fun acc c => match acc, digitVal c with
      | some n, some d => some (10 * n + d)
      | _, _ => none) (some 0)

/-- Model of Python `int(str)` on an already-stripped string: optional sign
followed by at least one decimal digit. -/
def pyInt (s : String) : Option Int :=
  match s.data with
  | '+' :: ds => (digitsToNat ds).map Int.ofNat
  | '-' :: ds => (digitsToNat ds).map (fun n => -(n : Int))
  | ds => (digitsToNat ds).map Int.ofNat

/-- Model of Python `decimal.Decimal(str)` on an already-stripped string:
optional sign, then digits with at most one decimal point and at least one
digit overall.  The result is `(numerator, scale)` denoting
`numerator / 10 ^ scale`.  (`Decimal` raises `InvalidOperation` on anything
else; that is the `none` case.) -/
def pyDecimal (s : String) : Option (Int × Nat) :=
  let core : List Char → Option (Nat × Nat) := fun l =>
    let intPart := l.takeWhile (fun c => c ≠ '.')
    let rest := l.dropWhile (fun c => c ≠ '.')
    let fracPart := match rest with
      | '.' :: fp => some fp
      | [] => some []
      | _ => none
    match fracPart with
    | none => none
    | some fp =>
      if fp.contains '.' then none
      else if intPart.length + fp.length == 0 then none
      else match digitsToNat (intPart ++ fp) with
        | some n => if intPart.all (fun c => (digitVal c).isSome) then
            some (n, fp.length) else none
        | none => none
  match s.data with
  | '+' :: ds => (core ds).map (fun p => ((p.1 : Int), p.2))
  | '-' :: ds => (core ds).map (fun p => (-(p.1 : Int), p.2))
  | ds => (core ds).map (fun p => ((p.1 : Int), p.2))

/-- Model of Python `math.floor` on a decimal `(n, scale)` = `n / 10^scale`. -/
def floorDec (n : Int) (scale : Nat) : Int :=
  Int.fdiv n (10 ^ scale)

/-- Model of Python `math.ceil` on a decimal `(n, scale)` = `n / 10^scale`. -/
def ceilDec (n : Int) (scale : Nat) : Int :=
  -(Int.fdiv (-n) (10 ^ scale))

/-! ### Calendar arithmetic (model of Python `datetime`)

Instants are integers: seconds since the Unix epoch, UTC.  The two civil
conversions are the standard proleptic-Gregorian day-count algorithms. -/

/-- Days since 1970-01-01 of the civil date `(y, m, d)`. -/
def daysFromCivil (y m d : Int) : Int :=
  let y' := if m ≤ 2 then y - 1 else y
  let era := Int.fdiv y' 400
  let yoe := y' - era * 400
  let mp := Int.emod (m + 9) 12
  let doy := Int.fdiv (153 * mp + 2) 5 + d - 1
  let doe := yoe * 365 + Int.fdiv yoe 4 - Int.fdiv yoe 100 + doy
  era * 146097 + doe - 719468

/-- Civil date `(year, month, day)` of a count of days since 1970-01-01. -/
def civilFromDays (z : Int) : Int × Int × Int :=
  let z' := z + 719468
  let era := Int.fdiv z' 146097
  let doe := z' - era * 146097
  let yoe := Int.fdiv
    (doe - Int.fdiv doe 1460 + Int.fdiv doe 36524 - Int.fdiv doe 146096) 365
  let y := yoe + era * 400
  let doy := doe - (365 * yoe + Int.fdiv yoe 4 - Int.fdiv yoe 100)
  let mp := Int.fdiv (5 * doy + 2) 153
  let d := doy - Int.fdiv (153 * mp + 2) 5 + 1
  let m := mp + (if mp < 10 then 3 else -9)
  (if m ≤ 2 then y + 1 else y, m, d)

/-- Leap-year test of the Gregorian calendar. -/
def isLeap (y : Int) : Bool :=
  (Int.emod y 4 == 0 && Int.emod y 100 != 0) || Int.emod y 400 == 0

/-- Length of month `m` in year `y`. -/
def daysInMonth (y m : Int) : Int :=
  if m == 2 then (if isLeap y then 29 else 28)
  else if m == 4 || m == 6 || m == 9 || m == 11 then 30
  else 31

/-- A parsed date/time: civil components plus an optional UTC offset in
minutes (`none` = a naive datetime). -/
structure ParsedDT where
  year : Int
  month : Int
  day : Int
  hour : Int
  minute : Int
  second : Int
  tz : Option Int
deriving Repr, DecidableEq

/-- The civil components of `pd` as seconds since the epoch, ignoring its
offset. -/
def toInstant (pd : ParsedDT) : Int :=
  daysFromCivil pd.year pd.month pd.day * 86400
    + pd.hour * 3600 + pd.minute * 60 + pd.second

/-- Seconds since the epoch of the civil components `(y, m, d, h, mi, s)`
read as UTC. -/
def mkInstant (y m d h mi s : Int) : Int :=
  daysFromCivil y m d * 86400 + h * 3600 + mi * 60 + s

/-- Read exactly two digit characters. -/
def parse2 : List Char → Option (Nat × List Char)
  | a :: b :: rest =>
    match digitVal a, digitVal b with
    | some x, some y => some (10 * x + y, rest)
    | _, _ => none
  | _ => none

/-- Read exactly four digit characters. -/
def parse4 : List Char → Option (Nat × List Char)
  | a :: b :: c :: d :: rest =>
    match digitVal a, digitVal b, digitVal c, digitVal d with
    | some w, some x, some y, some z => some (1000 * w + 100 * x + 10 * y + z, rest)
    | _, _, _, _ => none
  | _ => none

/-- Read an optional trailing UTC-offset designator (`Z` or `±HH:MM`);
`some none` means a naive datetime (no designator). -/
def parseTzTail : List Char → Option (Option Int)
  | [] => some none
  | ['Z'] => some (some 0)
  | '+' :: rest =>
    match parse2 rest with
    | some (hh, ':' :: rest') =>
      match parse2 rest' with
      | some (mm, []) => some (some ((hh : Int) * 60 + (mm : Int)))
      | _ => none
    | _ => none
  | '-' :: rest =>
    match parse2 rest with
    | some (hh, ':' :: rest') =>
      match parse2 rest' with
      | some (mm, []) => some (some (-((hh : Int) * 60 + (mm : Int))))
      | _ => none
    | _ => none
  | _ => none

/-- Read `HH:MM[:SS]` followed by an optional offset designator. -/
def parseTimeTail : List Char → Option (Nat × Nat × Nat × Option Int)
  | l =>
    match parse2 l with
    | some (h, ':' :: rest) =>
      match parse2 rest with
      | some (mi, rest') =>
        match rest' with
        | ':' :: rest2 =>
          match parse2 rest2 with
          | some (s, rest3) =>
            (parseTzTail rest3).map (fun tz => (h, mi, s, tz))
          | none => none
        | _ => (parseTzTail rest').map (fun tz => (h, mi, 0, tz))
      | none => none
    | _ => none

/-- Model of `dateutil.parser.isoparse` on the formats this code path
exercises: `YYYY-MM-DD`, optionally followed by a single separator
character and `HH:MM[:SS]` with an optional `Z`/`±HH:MM` offset.  Component
ranges are validated as `datetime` does; anything else raises
(`none` here).  (`isoparse` raises `ValueError` subclasses, all of which
`DateEqualViewFilterType.get_filter` catches.) -/
def isoparse (s : String) : Option ParsedDT :=
  match parse4 s.data with
  | some (y, '-' :: r1) =>
    match parse2 r1 with
    | some (mo, '-' :: r2) =>
      match parse2 r2 with
      | some (d, r3) =>
        if 1 ≤ mo ∧ mo ≤ 12 ∧ 1 ≤ d ∧ (d : Int) ≤ daysInMonth (y : Int) (mo : Int) then
          match r3 with
          | [] => some ⟨y, mo, d, 0, 0, 0, none⟩
          | _ :: tl =>
            match parseTimeTail tl with
            | some (h, mi, sec, tz) =>
              if h ≤ 23 ∧ mi ≤ 59 ∧ sec ≤ 59 then
                some ⟨y, mo, d, h, mi, sec, tz⟩
              else none
            | none => none
        else none
      | _ => none
    | _ => none
  | _ => none

/-! ### Django model fields and value coercion -/

/-- The Django model-field classes the source dispatches on (via
`isinstance`) or calls `get_prep_value` on. -/
inductive ModelField where
  | charField
  | textField
  | integerField
  | decimalField (decimalPlaces : Nat)
  | booleanField
  | dateField
  | dateTimeField
  | manyToManyField
  | foreignKey
  | jsonField
deriving Repr, DecidableEq

/-- The Python values the source hands to `get_prep_value` or stores inside
a `Q` keyword argument. -/
inductive PyVal where
  | pstr (s : String)
  | pint (n : Int)
  | pbool (b : Bool)
deriving Repr, DecidableEq

/-- `isinstance(model_field, IntegerField)`. -/
def isIntegerField : ModelField → Bool
  | .integerField => true
  | _ => false

/-- Model of Django `Field.get_prep_value` per field class: `some` when the
coercion succeeds, `none` when it raises.
* `CharField`/`TextField` apply `str(...)`, which never raises.
* `IntegerField` applies `int(...)`.
* `DecimalField` applies `decimal.Decimal(...)` to strings.
* `BooleanField.to_python` accepts booleans and the strings
  `t/True/1/f/False/0`, raising `ValidationError` otherwise.
* `DateField`/`DateTimeField` parse date strings and raise on anything
  unparsable (in particular on the empty string).
* the postgres `JSONField` json-serialises any value, never raising.
* relation fields pass the value through. -/
def getPrepValue : ModelField → PyVal → Option PyVal
  | .charField, v => some v
  | .textField, v => some v
  | .integerField, .pstr s => (pyInt s).map .pint
  | .integerField, .pint n => some (.pint n)
  | .integerField, .pbool b => some (.pint (if b then 1 else 0))
  | .decimalField _, .pstr s => (pyDecimal s).map (fun _ => .pstr s)
  | .decimalField _, .pint n => some (.pint n)
  | .decimalField _, .pbool _ => none
  | .booleanField, .pbool b => some (.pbool b)
  | .booleanField, .pstr s =>
    if s == "t" || s == "True" || s == "1" then some (.pbool true)
    else if s == "f" || s == "False" || s == "0" then some (.pbool false)
    else none
  | .booleanField, .pint n => some (.pbool (n != 0))
  | .dateField, .pstr s => (isoparse s).map (fun _ => .pstr s)
  | .dateField, _ => none
  | .dateTimeField, .pstr s => (isoparse s).map (fun _ => .pstr s)
  | .dateTimeField, _ => none
  | .manyToManyField, v => some v
  | .foreignKey, v => some v
  | .jsonField, v => some v

/-! ### Rows, stored cells and predicate fragments -/

/-- A stored file object of a file-list (JSON) cell; only `visible_name`
is consulted by the source. -/
structure FileObj where
  visibleName : String
deriving Repr, DecidableEq

/-- A JSON document stored in a `JSONField` column. -/
inductive JVal where
  | jstr (s : String)
  | jarr (files : List FileObj)
  | jobj0
deriving Repr, DecidableEq

/-- A stored cell value of one column of one row (`Cell.vnull` is SQL
`NULL`). -/
inductive Cell where
  | vnull
  | vstr (s : String)
  | vint (n : Int)
  | vbool (b : Bool)
  | vdatetime (t : Int)
  | vjson (j : JVal)
deriving Repr, DecidableEq

/-- A row: the stored cell of each column name. -/
def Row := String → Cell

/-- A row holding `c` in column `f` and SQL `NULL` everywhere else. -/
def singleRow (f : String) (c : Cell) : Row :=
  fun g => if g = f then c else .vnull

/-- A value appearing on the right-hand side of a `Q` keyword argument
in the source. -/
inductive QVal where
  | qstr (s : String)
  | qint (n : Int)
  | qbool (b : Bool)
  | qnone
  | qemptyList
  | qemptyObj
  | qdatetime (t : Int)
deriving Repr, DecidableEq

/-- Embedding of the Django `Q` objects the source builds.  `qempty` is
`Q()`; `qnot` is `~`; `qor` is `Q.add(_, Q.OR)`; the remaining
constructors are the keyword lookups used: exact match (`Q(field=v)`,
including the `field_id` form of `SingleSelectEqualViewFilterType`),
`__isnull`, `__icontains`, `__gt`, `__lt`, the
`__year`/`__month`/`__day` triple of `DateEqualViewFilterType`, and the
annotation-backed filename predicate of `FilenameContainsViewFilterType`
(its `get_annotation` raw SQL and the `Q` on the annotated boolean,
combined into one fragment: `EXISTS` over the JSON array, comparing
`UPPER(visible_name) LIKE UPPER('%' + value + '%')`). -/
inductive Frag where
  | qempty
  | exact (field : String) (v : QVal)
  | isnull (field : String) (b : Bool)
  | icontains (field : String) (s : String)
  | gt (field : String) (v : QVal)
  | lt (field : String) (v : QVal)
  | ymd (field : String) (c : Int × Int × Int)
  | fileMatch (field : String) (value : String)
  | qnot (f : Frag)
  | qor (a b : Frag)
deriving Repr, DecidableEq

/-- All suffixes of a list, longest first (ending with `[]`). -/
def sufs : List Char → List (List Char)
  | [] => [[]]
  | c :: s => (c :: s) :: sufs s

/-- PostgreSQL `LIKE` pattern matching on character lists: `%` matches any
sequence (the rest of the pattern must match some suffix), `_` matches any
one character, and backslash — the default `ESCAPE` character, since the
source's raw SQL supplies no `ESCAPE` clause — makes the following pattern
character match literally.  (A pattern ending in a lone backslash is a
PostgreSQL error; it cannot arise here because every pattern built by the
source ends in `%`.) -/
def likeMatch (p : List Char) (s : List Char) : Bool :=
  match p with
  | [] => s.isEmpty
  | c :: p' =>
    if c = '%' then (sufs s).any (fun s₂ => likeMatch p' s₂)
    else if c = '\\' then
      match p' with
      | [] => false
      | e :: p'' =>
        match s with
        | [] => false
        | c' :: s' => (e == c') && likeMatch p'' s'
    else
      match s with
      | [] => false
      | c' :: s' => (c = '_' || c == c') && likeMatch p' s'

/-- `prefixB m s`: `m` is a prefix of `s`. -/
def prefixB : List Char → List Char → Bool
  | [], _ => true
  | _ :: _, [] => false
  | c :: m, c' :: s => (c == c') && prefixB m s

/-- `substrB m s`: `m` occurs contiguously inside `s`. -/
def substrB (m : List Char) : List Char → Bool
  | [] => prefixB m []
  | c :: s' => prefixB m (c :: s') || substrB m s'

/-- Case-insensitive (ASCII) substring containment: the spec's notion of
"contains the value as a case-insensitive substring". -/
def ciContainsB (value name : String) : Bool :=
  substrB (upperL value.data) (upperL name.data)

/-- The calendar `(year, month, day)` in UTC of an instant. -/
def ymdOfInstant (t : Int) : Int × Int × Int :=
  civilFromDays (Int.fdiv t 86400)

/-- Comparison of a stored cell against an exact-match `Q` value, as the
SQL produced by Django evaluates it (`= NULL` never holds; `None` means
`IS NULL`; string literals against typed columns compare under the
column's type). -/
def cellEq : Cell → QVal → Bool
  | .vnull, .qnone => true
  | _, .qnone => false
  | .vstr s, .qstr t => s == t
  | .vint n, .qstr t => pyInt t == some n
  | .vint n, .qint m => n == m
  | .vbool b, .qbool c => b == c
  | .vbool b, .qstr s =>
    match getPrepValue .booleanField (.pstr s) with
    | some (.pbool c) => b == c
    | _ => false
  | .vdatetime r, .qdatetime t => r == t
  | .vjson j, .qemptyList => j == .jarr []
  | .vjson j, .qemptyObj => j == .jobj0
  | .vjson j, .qstr s => j == .jstr s
  | _, _ => false

/-- SQL `IS NULL` on a stored cell. -/
def cellIsNull : Cell → Bool
  | .vnull => true
  | _ => false

/-- Numeric `>` of a stored cell against a filter value (`NULL` compares
false). -/
def cellGt : Cell → QVal → Bool
  | .vint n, .qint m => m < n
  | .vint n, .qstr t =>
    match pyInt t with
    | some m => m < n
    | none => false
  | _, _ => false

/-- Numeric `<` of a stored cell against a filter value. -/
def cellLt : Cell → QVal → Bool
  | .vint n, .qint m => n < m
  | .vint n, .qstr t =>
    match pyInt t with
    | some m => n < m
    | none => false
  | _, _ => false

/-- Truth of a fragment on a row.  `Q()` matches every row.  `~` on a
non-empty node is logical complement, but `~Q()` — negation of the
childless node — is falsy in Django (`Node.__bool__` is
`bool(self.children)`), so `Q._combine` and `Query.add_q` drop it and it
imposes no condition: it matches every row, like `Q()` itself.
`Q.add(_, Q.OR)` is disjunction; the lookups evaluate the named column's
cell. -/
def evalFrag (row : Row) : Frag → Bool
  | .qempty => true
  | .exact f v => cellEq (row f) v
  | .isnull f b => cellIsNull (row f) == b
  | .icontains f v =>
    match row f with
    | .vstr t => substrB (upperL v.data) (upperL t.data)
    | _ => false
  | .gt f v => cellGt (row f) v
  | .lt f v => cellLt (row f) v
  | .ymd f c =>
    match row f with
    | .vdatetime r => ymdOfInstant r == c
    | _ => false
  | .fileMatch f v =>
    match row f with
    | .vjson (.jarr files) =>
      files.any (fun fo =>
        likeMatch (upperL ('%' :: v.data ++ ['%'])) (upperL fo.visibleName.data))
    | _ => false
  | .qnot q => if q = .qempty then true else !evalFrag row q
  | .qor a b => evalFrag row a || evalFrag row b

/-! ### The filter transformers

Each definition embeds one `get_filter` method.  The result is
`Option Frag`: `some q` is a returned `Q` object, `none` is an exception
escaping the method. -/

/-- `NotViewFilterTypeMixin.get_filter`: `~super().get_filter(...)` (an
exception from the wrapped filter propagates). -/
def notFilter (inner : Option Frag) : Option Frag :=
  inner.map .qnot

/-- `EqualViewFilterType.get_filter`. -/
def equalGetFilter (fieldName value : String) (modelField : ModelField) :
    Option Frag :=
  let value := pystrip value
  if value = "" then some .qempty
  else
    match getPrepValue modelField (.pstr value) with
    | some _ => some (.exact fieldName (.qstr value))
    | none => some .qempty

/-- `NotEqualViewFilterType.get_filter` (the mixin over `equal`). -/
def notEqualGetFilter (fieldName value : String) (modelField : ModelField) :
    Option Frag :=
  notFilter (equalGetFilter fieldName value modelField)

/-- `ContainsViewFilterType.get_filter`. -/
def containsGetFilter (fieldName value : String) (modelField : ModelField) :
    Option Frag :=
  let value := pystrip value
  if value = "" then some .qempty
  else
    match getPrepValue modelField (.pstr value) with
    | some _ => some (.icontains fieldName value)
    | none => some .qempty

/-- `ContainsNotViewFilterType.get_filter` (the mixin over `contains`). -/
def containsNotGetFilter (fieldName value : String) (modelField : ModelField) :
    Option Frag :=
  notFilter (containsGetFilter fieldName value modelField)

/-- `FilenameContainsViewFilterType.get_filter` together with the raw SQL
built by its annotation method: for a non-empty stripped value the
resulting query constrains the annotated `EXISTS`/`LIKE` predicate to be
true, embedded here as the single `Frag.fileMatch` fragment. -/
def filenameContainsGetFilter (fieldName value : String)
    (_modelField : ModelField) : Option Frag :=
  let value := pystrip value
  if value = "" then some .qempty
  else some (.fileMatch fieldName value)

/-- `HigherThanViewFilterType.get_filter`.  Note `Decimal(value)` is
evaluated outside the `try` block: on an integer column, a value that
contains `'.'` but is not a valid decimal raises an uncaught
`decimal.InvalidOperation` (the `none` case). -/
def higherThanGetFilter (fieldName value : String) (modelField : ModelField) :
    Option Frag :=
  let value := pystrip value
  if value = "" then some .qempty
  else if isIntegerField modelField && value.data.contains '.' then
    match pyDecimal value with
    | none => none
    | some d =>
      let v : Int := floorDec d.1 d.2
      match getPrepValue modelField (.pint v) with
      | some _ => some (.gt fieldName (.qint v))
      | none => some .qempty
  else
    match getPrepValue modelField (.pstr value) with
    | some _ => some (.gt fieldName (.qstr value))
    | none => some .qempty

/-- `LowerThanViewFilterType.get_filter` (mirror of `higher_than`, with
`ceil` and `__lt`; the same uncaught `Decimal(value)` applies). -/
def lowerThanGetFilter (fieldName value : String) (modelField : ModelField) :
    Option Frag :=
  let value := pystrip value
  if value = "" then some .qempty
  else if isIntegerField modelField && value.data.contains '.' then
    match pyDecimal value with
    | none => none
    | some d =>
      let v : Int := ceilDec d.1 d.2
      match getPrepValue modelField (.pint v) with
      | some _ => some (.lt fieldName (.qint v))
      | none => some .qempty
  else
    match getPrepValue modelField (.pstr value) with
    | some _ => some (.lt fieldName (.qstr value))
    | none => some .qempty

/-- `DateEqualViewFilterType.get_filter`.  `loc` is the ambient local
timezone of the process as a UTC offset in minutes:
`parser.isoparse(value).astimezone(utc)` converts an offset-aware parse
using its own offset and a naive parse using the local timezone. -/
def dateEqualGetFilter (loc : Int) (fieldName value : String)
    (_modelField : ModelField) : Option Frag :=
  let value := pystrip value
  if value = "" then some .qempty
  else
    match isoparse value with
    | none => some .qempty
    | some pd =>
      let inst := toInstant pd - 60 * (pd.tz.getD loc)
      if pyLen value ≤ 10 then
        some (.ymd fieldName (ymdOfInstant inst))
      else
        some (.exact fieldName (.qdatetime inst))

/-- `DateNotEqualViewFilterType.get_filter` (the mixin over `date_equal`). -/
def dateNotEqualGetFilter (loc : Int) (fieldName value : String)
    (modelField : ModelField) : Option Frag :=
  notFilter (dateEqualGetFilter loc fieldName value modelField)

/-- `SingleSelectEqualViewFilterType.get_filter`: `int(value)` inside a
`try` whose `except` returns `Q()`; on success the filter is
`Q(**{f"{field_name}_id": value})`. -/
def singleSelectEqualGetFilter (fieldName value : String)
    (_modelField : ModelField) : Option Frag :=
  let value := pystrip value
  if value = "" then some .qempty
  else
    match pyInt value with
    | some _ => some (.exact (fieldName ++ "_id") (.qstr value))
    | none => some .qempty

/-- `SingleSelectNotEqualViewFilterType.get_filter` (the mixin over
`single_select_equal`). -/
def singleSelectNotEqualGetFilter (fieldName value : String)
    (modelField : ModelField) : Option Frag :=
  notFilter (singleSelectEqualGetFilter fieldName value modelField)

/-- The truthy token list of `BooleanViewFilterType.get_filter`. -/
def truthyList : List String :=
  ["y", "t", "o", "yes", "true", "on", "1"]

/-- `BooleanViewFilterType.get_filter`. -/
def booleanGetFilter (fieldName value : String) (modelField : ModelField) :
    Option Frag :=
  let b := truthyList.contains (pyLower (pystrip value))
  match getPrepValue modelField (.pbool b) with
  | some _ => some (.exact fieldName (.qbool b))
  | none => some .qempty

/-- `EmptyViewFilterType.get_filter` (the raw value is never consulted). -/
def emptyGetFilter (fieldName : String) (_value : String)
    (modelField : ModelField) : Option Frag :=
  if modelField = .manyToManyField ∨ modelField = .foreignKey then
    some (.exact fieldName .qnone)
  else if modelField = .booleanField then
    some (.exact fieldName (.qbool false))
  else
    let q : Frag := .qor (.isnull fieldName true) (.exact fieldName .qnone)
    let q : Frag :=
      if modelField = .jsonField then
        .qor (.qor q (.exact fieldName .qemptyList)) (.exact fieldName .qemptyObj)
      else q
    match getPrepValue modelField (.pstr "") with
    | some _ => some (.qor q (.exact fieldName (.qstr "")))
    | none => some q

/-- `NotEmptyViewFilterType.get_filter` (the mixin over `empty`). -/
def notEmptyGetFilter (fieldName value : String) (modelField : ModelField) :
    Option Frag :=
  notFilter (emptyGetFilter fieldName value modelField)

/-! ### Helper lemmas -/

/-- The negation mixin complements the truth value of the wrapped filter's
fragment whenever that fragment is non-empty. -/
theorem notFilter_eval_of_ne (o : Option Frag) (row : Row) (q : Frag)
    (ho : o = some q) (hq : q ≠ .qempty) :
    (notFilter o).map (evalFrag row) = some (!evalFrag row q) := by
  subst ho
  simp [notFilter, evalFrag, hq]

/-- The negation mixin over the empty fragment produces `~Q()`, which
Django drops, so it still matches every row. -/
theorem notFilter_eval_of_empty (o : Option Frag) (row : Row)
    (ho : o = some .qempty) :
    (notFilter o).map (evalFrag row) = some true := by
  subst ho
  simp [notFilter, evalFrag]

/-- Exact match against `None` is the SQL null test. -/
theorem cellEq_qnone (c : Cell) : cellEq c .qnone = cellIsNull c := by
  cases c <;> rfl

/-- Exact match against `False` holds exactly for a stored `false`. -/
theorem cellEq_qbool_false (c : Cell) :
    cellEq c (.qbool false) = decide (c = .vbool false) := by
  cases c <;> first
    | rfl
    | (rename_i b; cases b <;> rfl)

/-! ### The claims -/

/-- Claim C1 (code bug): the claim says every transformer is total over
adversarial string input, degrading uncoerced values to the no-op
fragment; but on an integer-typed column, `higher_than` and `lower_than`
with the value "a.b" evaluate `Decimal("a.b")` outside the `try` block and
let `decimal.InvalidOperation` escape (the `none` result), while the same
value through `equal` is swallowed into the no-op as the claim expects. -/
theorem claimC1_failing :
    higherThanGetFilter "f" "a.b" .integerField = none
    ∧ lowerThanGetFilter "f" "a.b" .integerField = none
    ∧ equalGetFilter "f" "a.b" .integerField = some .qempty := by
  decide

/-- Claim C2, counterexample: at the empty raw value, `equal` returns
`Q()` (matching every row) and `not_equal` returns `~Q()`, which Django
drops as an empty negated node, so it also matches every row — both
fragments are true on the same row, not complements. -/
theorem claimC2_counterexample :
    (equalGetFilter "f" "" .charField).map
        (evalFrag (fun _ => Cell.vnull)) = some true
    ∧ (notEqualGetFilter "f" "" .charField).map
        (evalFrag (fun _ => Cell.vnull)) = some true := by
  decide

/-- Claim C2 as amended: whenever the base transformer returns a
non-empty fragment, the negated transformer's fragment is its exact
logical complement on every row; but whenever the base returns the empty
no-op fragment `Q()` (empty or uncoercible value), the negated
transformer returns `~Q()`, which Django drops, so base and negation both
match every row.  This holds for all five negated/base pairs. -/
theorem claimC2_negation_complement :
    ∀ (loc : Int) (fieldName value : String) (mf : ModelField) (row : Row),
      (∀ q, equalGetFilter fieldName value mf = some q → q ≠ .qempty →
        (notEqualGetFilter fieldName value mf).map (evalFrag row)
          = some (!evalFrag row q))
      ∧ (equalGetFilter fieldName value mf = some .qempty →
        (notEqualGetFilter fieldName value mf).map (evalFrag row) = some true
          ∧ (equalGetFilter fieldName value mf).map (evalFrag row) = some true)
      ∧ (∀ q, containsGetFilter fieldName value mf = some q → q ≠ .qempty →
        (containsNotGetFilter fieldName value mf).map (evalFrag row)
          = some (!evalFrag row q))
      ∧ (containsGetFilter fieldName value mf = some .qempty →
        (containsNotGetFilter fieldName value mf).map (evalFrag row) = some true
          ∧ (containsGetFilter fieldName value mf).map (evalFrag row) = some true)
      ∧ (∀ q, dateEqualGetFilter loc fieldName value mf = some q → q ≠ .qempty →
        (dateNotEqualGetFilter loc fieldName value mf).map (evalFrag row)
          = some (!evalFrag row q))
      ∧ (dateEqualGetFilter loc fieldName value mf = some .qempty →
        (dateNotEqualGetFilter loc fieldName value mf).map (evalFrag row) = some true
          ∧ (dateEqualGetFilter loc fieldName value mf).map (evalFrag row) = some true)
      ∧ (∀ q, singleSelectEqualGetFilter fieldName value mf = some q → q ≠ .qempty →
        (singleSelectNotEqualGetFilter fieldName value mf).map (evalFrag row)
          = some (!evalFrag row q))
      ∧ (singleSelectEqualGetFilter fieldName value mf = some .qempty →
        (singleSelectNotEqualGetFilter fieldName value mf).map (evalFrag row)
            = some true
          ∧ (singleSelectEqualGetFilter fieldName value mf).map (evalFrag row)
            = some true)
      ∧ (∀ q, emptyGetFilter fieldName value mf = some q → q ≠ .qempty →
        (notEmptyGetFilter fieldName value mf).map (evalFrag row)
          = some (!evalFrag row q))
      ∧ (emptyGetFilter fieldName value mf = some .qempty →
        (notEmptyGetFilter fieldName value mf).map (evalFrag row) = some true
          ∧ (emptyGetFilter fieldName value mf).map (evalFrag row) = some true) := by
  intro loc fieldName value mf row
  refine ⟨fun q hq hne => notFilter_eval_of_ne _ row q hq hne,
    fun hq => ⟨notFilter_eval_of_empty _ row hq, by rw [hq]; rfl⟩,
    fun q hq hne => notFilter_eval_of_ne _ row q hq hne,
    fun hq => ⟨notFilter_eval_of_empty _ row hq, by rw [hq]; rfl⟩,
    fun q hq hne => notFilter_eval_of_ne _ row q hq hne,
    fun hq => ⟨notFilter_eval_of_empty _ row hq, by rw [hq]; rfl⟩,
    fun q hq hne => notFilter_eval_of_ne _ row q hq hne,
    fun hq => ⟨notFilter_eval_of_empty _ row hq, by rw [hq]; rfl⟩,
    fun q hq hne => notFilter_eval_of_ne _ row q hq hne,
    fun hq => ⟨notFilter_eval_of_empty _ row hq, by rw [hq]; rfl⟩⟩

/-- Claim C2 witness: the complement branch at a coercing value and the
dropped-negation branch at the empty value, both on a text column. -/
theorem claimC2_negation_complement_witness :
    (notEqualGetFilter "f" "x" .charField).map
        (evalFrag (fun _ => Cell.vnull))
      = some (!evalFrag (fun _ => Cell.vnull) (.exact "f" (.qstr "x")))
    ∧ (notEqualGetFilter "f" "" .charField).map
        (evalFrag (fun _ => Cell.vnull)) = some true :=
  ⟨(claimC2_negation_complement 0 "f" "x" .charField (fun _ => Cell.vnull)).1
      (.exact "f" (.qstr "x")) (by decide) (by decide),
    ((claimC2_negation_complement 0 "f" "" .charField
      (fun _ => Cell.vnull)).2.1 (by decide)).1⟩

/-- Claim C6: the boolean transformer compares the stripped, lower-cased
value against the truthy token list `y/t/o/yes/true/on/1` and always
produces an exact-equality fragment (`column == true` for truthy values
such as "YES" and "1", `column == false` otherwise, including "nope" and
the empty value); it never degrades to the universal-true no-op. -/
theorem claimC6_boolean :
    (∀ fieldName value,
      booleanGetFilter fieldName value .booleanField
        = some (.exact fieldName
            (.qbool (truthyList.contains (pyLower (pystrip value))))))
    ∧ booleanGetFilter "f" "YES" .booleanField = some (.exact "f" (.qbool true))
    ∧ booleanGetFilter "f" "1" .booleanField = some (.exact "f" (.qbool true))
    ∧ booleanGetFilter "f" "nope" .booleanField = some (.exact "f" (.qbool false))
    ∧ booleanGetFilter "f" "" .booleanField = some (.exact "f" (.qbool false)) :=
  ⟨fun _ _ => rfl, by decide, by decide, by decide, by decide⟩

/-- Claim C10: `empty` and `not_empty` never consult the raw filter value:
their fragments agree for any two values on every column. -/
theorem claimC10_value_independent :
    ∀ (fieldName v1 v2 : String) (mf : ModelField),
      emptyGetFilter fieldName v1 mf = emptyGetFilter fieldName v2 mf
      ∧ notEmptyGetFilter fieldName v1 mf = notEmptyGetFilter fieldName v2 mf :=
  fun _ _ _ _ => ⟨rfl, rfl⟩

/-- Claim C3, counterexample: the `empty` transformer with an empty raw
value on a text column does not return the universal-true fragment — its
fragment rejects a row storing "hello". -/
theorem claimC3_counterexample :
    decide (emptyGetFilter "f" "" .charField = some Frag.qempty) = false
    ∧ (emptyGetFilter "f" "" .charField).map
        (evalFrag (fun _ => .vstr "hello")) = some false := by
  decide

/-- Claim C3 as amended: with a whitespace-only raw value, the seven
positive transformers return the universal-true fragment `Q()`, `boolean`
produces `column == false`, the negated transformers return `~Q()` —
syntactically the negation of the empty fragment, which Django drops as
an empty negated node, so it too matches every row — and
`empty`/`not_empty` ignore the raw value entirely. -/
theorem claimC3_empty_value :
    ∀ (loc : Int) (fieldName value : String) (mf : ModelField) (row : Row),
      pystrip value = "" →
      equalGetFilter fieldName value mf = some .qempty
      ∧ containsGetFilter fieldName value mf = some .qempty
      ∧ filenameContainsGetFilter fieldName value mf = some .qempty
      ∧ higherThanGetFilter fieldName value mf = some .qempty
      ∧ lowerThanGetFilter fieldName value mf = some .qempty
      ∧ dateEqualGetFilter loc fieldName value mf = some .qempty
      ∧ singleSelectEqualGetFilter fieldName value mf = some .qempty
      ∧ booleanGetFilter fieldName value .booleanField
          = some (.exact fieldName (.qbool false))
      ∧ notEqualGetFilter fieldName value mf = some (.qnot .qempty)
      ∧ containsNotGetFilter fieldName value mf = some (.qnot .qempty)
      ∧ dateNotEqualGetFilter loc fieldName value mf = some (.qnot .qempty)
      ∧ singleSelectNotEqualGetFilter fieldName value mf = some (.qnot .qempty)
      ∧ evalFrag row (.qnot .qempty) = true
      ∧ emptyGetFilter fieldName value mf = emptyGetFilter fieldName "x" mf
      ∧ notEmptyGetFilter fieldName value mf = notEmptyGetFilter fieldName "x" mf := by
  intro loc fieldName value mf row hv
  refine ⟨?_, ?_, ?_, ?_, ?_, ?_, ?_, ?_, ?_, ?_, ?_, ?_, rfl, rfl, rfl⟩ <;>
    simp [equalGetFilter, containsGetFilter, filenameContainsGetFilter,
      higherThanGetFilter, lowerThanGetFilter, dateEqualGetFilter,
      singleSelectEqualGetFilter, booleanGetFilter, notEqualGetFilter,
      containsNotGetFilter, dateNotEqualGetFilter,
      singleSelectNotEqualGetFilter, notFilter, hv, pyLower, truthyList,
      getPrepValue]

/-- Claim C3 witness: a concrete whitespace value on a text column. -/
theorem claimC3_empty_value_witness :
    equalGetFilter "f" " " .charField = some .qempty :=
  (claimC3_empty_value 0 "f" " " .charField (fun _ => .vnull) (by decide)).1

/-- Claim C5: against an integer column, `higher_than` takes the floor of
a decimal filter value and `lower_than` the ceiling — the rounding is
applied to the filter value in the fragment, never to the column — and on
integer rows the "5.7" fragment is `column > 5` and the "5.2" fragment is
`column < 6`. -/
theorem claimC5_integer_rounding :
    (∀ (fieldName value : String) (d : Int × Nat),
      pyDecimal (pystrip value) = some d →
      (pystrip value).data.contains '.' = true →
      pystrip value ≠ "" →
      higherThanGetFilter fieldName value .integerField
          = some (.gt fieldName (.qint (floorDec d.1 d.2)))
        ∧ lowerThanGetFilter fieldName value .integerField
          = some (.lt fieldName (.qint (ceilDec d.1 d.2))))
    ∧ (∀ n : Int,
      (higherThanGetFilter "f" "5.7" .integerField).map
          (evalFrag (singleRow "f" (.vint n))) = some (decide (n > 5))
        ∧ (lowerThanGetFilter "f" "5.2" .integerField).map
          (evalFrag (singleRow "f" (.vint n))) = some (decide (n < 6))) := by
  constructor
  · intro fieldName value d hd hdot hne
    have hmem : '.' ∈ (pystrip value).data := by simpa using hdot
    constructor <;>
      simp [higherThanGetFilter, lowerThanGetFilter, hne, hmem, hd,
        isIntegerField, getPrepValue]
  · intro n
    have h1 : higherThanGetFilter "f" "5.7" .integerField
        = some (.gt "f" (.qint 5)) := by decide
    have h2 : lowerThanGetFilter "f" "5.2" .integerField
        = some (.lt "f" (.qint 6)) := by decide
    rw [h1, h2]
    simp [evalFrag, singleRow, cellGt, cellLt]

/-- Claim C5 witness: the hypotheses hold at the concrete value "5.7". -/
theorem claimC5_integer_rounding_witness :
    higherThanGetFilter "f" "5.7" .integerField
        = some (.gt "f" (.qint (floorDec 57 1)))
      ∧ lowerThanGetFilter "f" "5.7" .integerField
        = some (.lt "f" (.qint (ceilDec 57 1))) :=
  claimC5_integer_rounding.1 "f" "5.7" (57, 1) (by decide) (by decide) (by decide)

/-- Claim C7: the `empty` fragment is storage-kind-dependent: on
foreign-key and many-to-many columns it is exactly the null test; on
boolean columns it matches exactly the rows storing `false`; on JSON
columns it matches the rows whose value is null, the empty array or the
empty object; on other scalar columns it matches exactly null rows plus —
when the storage kind accepts the empty string — empty-string rows (text
shown here with both branches, integer with the null branch only). -/
theorem claimC7_empty_semantics :
    (∀ (fieldName value : String) (row : Row),
      (emptyGetFilter fieldName value .foreignKey).map (evalFrag row)
          = some (cellIsNull (row fieldName))
        ∧ (emptyGetFilter fieldName value .manyToManyField).map (evalFrag row)
          = some (cellIsNull (row fieldName)))
    ∧ (∀ (fieldName value : String) (row : Row),
      (emptyGetFilter fieldName value .booleanField).map (evalFrag row)
        = some (decide (row fieldName = .vbool false)))
    ∧ (∀ (fieldName value : String) (row : Row),
      (row fieldName = .vnull ∨ row fieldName = .vjson (.jarr [])
          ∨ row fieldName = .vjson .jobj0) →
      (emptyGetFilter fieldName value .jsonField).map (evalFrag row) = some true)
    ∧ (∀ (fieldName value : String) (row : Row),
      (∀ j, row fieldName ≠ .vjson j) →
      (emptyGetFilter fieldName value .charField).map (evalFrag row)
          = some (decide (row fieldName = .vnull ∨ row fieldName = .vstr ""))
        ∧ (emptyGetFilter fieldName value .integerField).map (evalFrag row)
          = some (decide (row fieldName = .vnull))) := by
  refine ⟨fun fieldName value row => ?_, fun fieldName value row => ?_,
    fun fieldName value row h => ?_, fun fieldName value row hnj => ?_⟩
  · exact ⟨by simp [emptyGetFilter, evalFrag, cellEq_qnone],
      by simp [emptyGetFilter, evalFrag, cellEq_qnone]⟩
  · simp [emptyGetFilter, evalFrag, cellEq_qbool_false]
  · rcases h with h | h | h <;>
      simp [emptyGetFilter, evalFrag, h, cellEq, cellIsNull, getPrepValue]
  · have hcf : emptyGetFilter fieldName value .charField
        = some (.qor (.qor (.isnull fieldName true) (.exact fieldName .qnone))
            (.exact fieldName (.qstr ""))) := rfl
    have hif : emptyGetFilter fieldName value .integerField
        = some (.qor (.isnull fieldName true) (.exact fieldName .qnone)) := rfl
    rw [hcf, hif]
    have hpi : pyInt "" = none := by decide
    have hbp : getPrepValue .booleanField (.pstr "") = none := by decide
    cases hc : row fieldName with
    | vstr s =>
      by_cases hs : s = "" <;> simp [evalFrag, hc, hs, cellEq, cellIsNull]
    | vjson j => exact absurd hc (hnj j)
    | _ => simp [evalFrag, hc, cellEq, cellIsNull, hpi, hbp]

/-- Claim C7 witness: a row storing the empty JSON array matches the
`empty` fragment of a JSON column. -/
theorem claimC7_empty_semantics_witness :
    (emptyGetFilter "f" "" .jsonField).map
      (evalFrag (singleRow "f" (.vjson (.jarr [])))) = some true :=
  claimC7_empty_semantics.2.2.1 "f" "" (singleRow "f" (.vjson (.jarr [])))
    (Or.inr (Or.inl (by decide)))

/-- An instant inside day `D` (counted from the epoch) lies in day `D`. -/
theorem fdiv_day (D t : Int) (h0 : 0 ≤ t) (h1 : t < 86400) :
    Int.fdiv (D * 86400 + t) 86400 = D := by
  rw [Int.fdiv_eq_ediv _ (by norm_num)]
  omega

/-- Claim C4: when the stripped value parses, a value of at most 10
characters yields a fragment that matches a datetime cell exactly when the
cell's UTC calendar day equals that of the parsed value — so the date-only
value "2020-04-10" matches every time-of-day on that date — while a longer
value yields a fragment matching only the exact UTC instant, as with
"2020-04-10 12:30:30". -/
theorem claimC4_date_precision :
    (∀ (loc : Int) (fieldName value : String) (mf : ModelField) (pd : ParsedDT),
      isoparse (pystrip value) = some pd → pystrip value ≠ "" →
      (pyLen (pystrip value) ≤ 10 → ∀ r : Int,
        (dateEqualGetFilter loc fieldName value mf).map
            (evalFrag (singleRow fieldName (.vdatetime r)))
          = some (ymdOfInstant r
              == ymdOfInstant (toInstant pd - 60 * (pd.tz.getD loc))))
      ∧ (10 < pyLen (pystrip value) → ∀ r : Int,
        (dateEqualGetFilter loc fieldName value mf).map
            (evalFrag (singleRow fieldName (.vdatetime r)))
          = some (r == toInstant pd - 60 * (pd.tz.getD loc))))
    ∧ (∀ h mi s : Int, 0 ≤ h → h < 24 → 0 ≤ mi → mi < 60 → 0 ≤ s → s < 60 →
      (dateEqualGetFilter 0 "f" "2020-04-10" .dateTimeField).map
          (evalFrag (singleRow "f" (.vdatetime (mkInstant 2020 4 10 h mi s))))
        = some true)
    ∧ (∀ r : Int,
      (dateEqualGetFilter 0 "f" "2020-04-10 12:30:30" .dateTimeField).map
          (evalFrag (singleRow "f" (.vdatetime r)))
        = some (r == mkInstant 2020 4 10 12 30 30)) := by
  refine ⟨fun loc fieldName value mf pd hp hne => ⟨fun hlen r => ?_, fun hlen r => ?_⟩,
    fun h mi s h0 h1 h2 h3 h4 h5 => ?_, fun r => ?_⟩
  · simp [dateEqualGetFilter, hp, hne, hlen, evalFrag, singleRow]
  · have hlen' : ¬ pyLen (pystrip value) ≤ 10 := by omega
    simp [dateEqualGetFilter, hp, hne, hlen', evalFrag, singleRow, cellEq]
  · have hfrag : dateEqualGetFilter 0 "f" "2020-04-10" .dateTimeField
        = some (.ymd "f" (2020, 4, 10)) := by decide
    rw [hfrag]
    have hd : daysFromCivil 2020 4 10 = 18362 := by decide
    have hmk : mkInstant 2020 4 10 h mi s
        = 18362 * 86400 + (h * 3600 + mi * 60 + s) := by
      rw [mkInstant, hd]; ring
    have ht : Int.fdiv (mkInstant 2020 4 10 h mi s) 86400 = 18362 := by
      rw [hmk]
      exact fdiv_day 18362 (h * 3600 + mi * 60 + s) (by omega) (by omega)
    have hy : ymdOfInstant (mkInstant 2020 4 10 h mi s) = (2020, 4, 10) := by
      rw [ymdOfInstant, ht]; decide
    simp [evalFrag, singleRow, hy]
  · have hfrag : dateEqualGetFilter 0 "f" "2020-04-10 12:30:30" .dateTimeField
        = some (.exact "f" (.qdatetime (mkInstant 2020 4 10 12 30 30))) := by
      decide
    rw [hfrag]
    simp [evalFrag, singleRow, cellEq]

/-- Claim C4 witness: noon on 2020-04-10 matches the date-only filter
"2020-04-10". -/
theorem claimC4_date_precision_witness :
    (dateEqualGetFilter 0 "f" "2020-04-10" .dateTimeField).map
        (evalFrag (singleRow "f" (.vdatetime (mkInstant 2020 4 10 12 30 30))))
      = some true :=
  claimC4_date_precision.2.1 12 30 30 (by decide) (by decide) (by decide)
    (by decide) (by decide) (by decide)

/-- Claim C8, counterexample: the `date_equal` fragment for the naive
value "2020-04-10 12:30:30" depends on the ambient local timezone — with
a UTC+60-minute local timezone it compares against 11:30:30 UTC, not the
written components read as UTC. -/
theorem claimC8_counterexample :
    decide (dateEqualGetFilter 60 "f" "2020-04-10 12:30:30" .dateTimeField
      = dateEqualGetFilter 0 "f" "2020-04-10 12:30:30" .dateTimeField) = false
    ∧ dateEqualGetFilter 60 "f" "2020-04-10 12:30:30" .dateTimeField
      = some (.exact "f" (.qdatetime (mkInstant 2020 4 10 11 30 30))) := by
  decide

/-- Claim C8 as amended: `astimezone` reads a parseable naive datetime in
the process's ambient local timezone (UTC offset `loc` minutes) and
converts it to UTC by subtracting that offset; the fragment therefore
compares against the written components read as UTC exactly when the
ambient timezone is UTC (`loc = 0`). -/
theorem claimC8_naive_localtime :
    ∀ (loc : Int) (fieldName value : String) (mf : ModelField) (pd : ParsedDT),
      isoparse (pystrip value) = some pd → pd.tz = none →
      pystrip value ≠ "" → 10 < pyLen (pystrip value) →
      dateEqualGetFilter loc fieldName value mf
        = some (.exact fieldName (.qdatetime (toInstant pd - 60 * loc))) := by
  intro loc fieldName value mf pd hp htz hne hlen
  have hlen' : ¬ pyLen (pystrip value) ≤ 10 := by omega
  simp [dateEqualGetFilter, hp, htz, hne, hlen']

/-- Claim C8 witness: under a UTC ambient timezone the naive value
"2020-04-10 12:30:30" is compared as written. -/
theorem claimC8_naive_localtime_witness :
    dateEqualGetFilter 0 "f" "2020-04-10 12:30:30" .dateTimeField
      = some (.exact "f" (.qdatetime
          (toInstant ⟨2020, 4, 10, 12, 30, 30, none⟩ - 60 * 0))) :=
  claimC8_naive_localtime 0 "f" "2020-04-10 12:30:30" .dateTimeField
    ⟨2020, 4, 10, 12, 30, 30, none⟩ (by decide) rfl (by decide) (by decide)

/-- `%` at the head of a pattern matches iff the rest matches some
suffix (by definition). -/
theorem likeMatch_pct (p s : List Char) :
    likeMatch ('%' :: p) s = (sufs s).any (fun s₂ => likeMatch p s₂) := by
  rw [likeMatch.eq_def]
  simp

/-- The empty list is a suffix of every list. -/
theorem nil_mem_sufs : ∀ s : List Char, [] ∈ sufs s
  | [] => List.mem_singleton.2 rfl
  | _ :: s => List.mem_cons_of_mem _ (nil_mem_sufs s)

/-- The pattern `%` alone matches everything. -/
theorem likeMatch_pct_all (s : List Char) : likeMatch ['%'] s = true := by
  rw [likeMatch_pct]
  exact List.any_eq_true.2 ⟨[], nil_mem_sufs s, rfl⟩

/-- A pattern free of wildcards and of the escape character, followed by
`%`, matches exactly the subjects it prefixes. -/
theorem likeMatch_append_pct :
    ∀ (m : List Char), (∀ c ∈ m, c ≠ '%' ∧ c ≠ '_' ∧ c ≠ '\\') →
      ∀ s, likeMatch (m ++ ['%']) s = prefixB m s := by
  intro m
  induction m with
  | nil =>
    intro _ s
    rw [List.nil_append, likeMatch_pct_all]
    rfl
  | cons c m ih =>
    intro hm s
    have hc : c ≠ '%' ∧ c ≠ '_' ∧ c ≠ '\\' := hm c (List.mem_cons_self _ _)
    have hm' : ∀ a ∈ m, a ≠ '%' ∧ a ≠ '_' ∧ a ≠ '\\' :=
      fun a ha => hm a (List.mem_cons_of_mem _ ha)
    cases s with
    | nil =>
      rw [List.cons_append, likeMatch.eq_def]
      simp [hc.1, hc.2.2, prefixB]
    | cons c' s' =>
      rw [List.cons_append, likeMatch.eq_def]
      simp [hc.1, hc.2.1, hc.2.2, prefixB, ih hm' s']

/-- Substring containment is "prefix of some suffix". -/
theorem substrB_eq_any (m : List Char) :
    ∀ s, substrB m s = (sufs s).any (fun t => prefixB m t) := by
  intro s
  induction s with
  | nil => simp [substrB, sufs]
  | cons c s ih => simp [substrB, sufs, ih]

/-- A pattern free of wildcards and escapes, wrapped in `%...%`, matches
exactly the subjects that contain it contiguously. -/
theorem likeMatch_sandwich (m : List Char)
    (hm : ∀ c ∈ m, c ≠ '%' ∧ c ≠ '_' ∧ c ≠ '\\') (s : List Char) :
    likeMatch ('%' :: (m ++ ['%'])) s = substrB m s := by
  rw [likeMatch_pct, substrB_eq_any]
  simp only [likeMatch_append_pct m hm]

/-- ASCII upper-casing never creates a `LIKE` wildcard or escape
character. -/
theorem upChar_keeps (c : Char) (h1 : c ≠ '%') (h2 : c ≠ '_')
    (h3 : c ≠ '\\') :
    upChar c ≠ '%' ∧ upChar c ≠ '_' ∧ upChar c ≠ '\\' := by
  unfold upChar
  split <;> first
    | exact ⟨by decide, by decide, by decide⟩
    | exact ⟨h1, h2, h3⟩

/-- Claim C9, counterexample: the filter value reaches the SQL `LIKE`
pattern unescaped, so its `_` acts as a one-character wildcard: the value
"a_b" matches a row whose only file is named "axb" even though "a_b" is
not a case-insensitive substring of "axb".  Likewise the backslash in the
value "a\b" acts as `LIKE`'s default escape character: it matches the
file named "ab" (not a containment) and misses the file actually named
"a\b" (a containment). -/
theorem claimC9_counterexample :
    (filenameContainsGetFilter "f" "a_b" .jsonField).map
        (evalFrag (singleRow "f" (.vjson (.jarr [⟨"axb"⟩]))))
      = some true
    ∧ ciContainsB "a_b" "axb" = false
    ∧ (filenameContainsGetFilter "f" "a\\b" .jsonField).map
        (evalFrag (singleRow "f" (.vjson (.jarr [⟨"ab"⟩]))))
      = some true
    ∧ ciContainsB "a\\b" "ab" = false
    ∧ (filenameContainsGetFilter "f" "a\\b" .jsonField).map
        (evalFrag (singleRow "f" (.vjson (.jarr [⟨"a\\b"⟩]))))
      = some false
    ∧ ciContainsB "a\\b" "a\\b" = true := by
  decide

/-- Claim C9 as amended: for a non-empty filter value containing no SQL
`LIKE` wildcard character (`%`, `_`) and no backslash (PostgreSQL's
default `LIKE` escape character), the `filename_contains` fragment is
true on a row exactly when some element of the row's JSON file list has
a `visible_name` containing the value as a case-insensitive substring;
a value with any of those three characters is instead interpreted as a
`LIKE` pattern, with `%`/`_` live as wildcards and backslash as an
escape. -/
theorem claimC9_filename_contains :
    ∀ (fieldName value : String) (mf : ModelField) (files : List FileObj),
      pystrip value ≠ "" →
      (∀ c ∈ (pystrip value).data, c ≠ '%' ∧ c ≠ '_' ∧ c ≠ '\\') →
      (filenameContainsGetFilter fieldName value mf).map
          (evalFrag (singleRow fieldName (.vjson (.jarr files))))
        = some (files.any (fun fo => ciContainsB (pystrip value) fo.visibleName)) := by
  intro fieldName value mf files hne hw
  have hw' : ∀ c ∈ upperL (pystrip value).data,
      c ≠ '%' ∧ c ≠ '_' ∧ c ≠ '\\' := by
    intro c hc
    obtain ⟨a, ha, rfl⟩ := List.mem_map.1 hc
    exact upChar_keeps a (hw a ha).1 (hw a ha).2.1 (hw a ha).2.2
  have hfrag : filenameContainsGetFilter fieldName value mf
      = some (.fileMatch fieldName (pystrip value)) := by
    simp [filenameContainsGetFilter, hne]
  rw [hfrag]
  have hrow : singleRow fieldName (.vjson (.jarr files)) fieldName
      = .vjson (.jarr files) := by
    simp [singleRow]
  simp only [Option.map_some', evalFrag, hrow]
  have hpat : upperL ('%' :: (pystrip value).data ++ ['%'])
      = '%' :: (upperL (pystrip value).data ++ ['%']) := by
    simp [upperL]
    rfl
  rw [hpat]
  have hlm : ∀ t, likeMatch ('%' :: (upperL (pystrip value).data ++ ['%'])) t
      = substrB (upperL (pystrip value).data) t :=
    fun t => likeMatch_sandwich _ hw' t
  simp only [hlm]
  rfl

/-- Claim C9 witness: "report" matches "Q1 Report.pdf" and does not match
"invoice.pdf". -/
theorem claimC9_filename_contains_witness :
    (filenameContainsGetFilter "f" "report" .jsonField).map
        (evalFrag (singleRow "f" (.vjson (.jarr [⟨"Q1 Report.pdf"⟩]))))
      = some true
    ∧ (filenameContainsGetFilter "f" "report" .jsonField).map
        (evalFrag (singleRow "f" (.vjson (.jarr [⟨"invoice.pdf"⟩]))))
      = some false := by
  constructor
  · rw [claimC9_filename_contains "f" "report" .jsonField [⟨"Q1 Report.pdf"⟩]
      (by decide) (by decide)]
    decide
  · rw [claimC9_filename_contains "f" "report" .jsonField [⟨"invoice.pdf"⟩]
      (by decide) (by decide)]
    decide

end BaserowFilters
